import Mathlib

/-!
Verification development for the Nextdoor deep-search browser extension.

The definitions below are a shallow embedding of the JavaScript source:
* the background script (request-template capture, search orchestration,
  comment extraction, the LLM tool loop), and
* the content script (replay-time header cleaning in
  `fetchFeedItem` / `fetchSearch`).

Conventions used throughout the embedding:
* a JavaScript value that may be `undefined`/`null` is an `Option`;
* a chain of optional accesses (`a?.b?.c`) whose intermediate objects are
  never read on their own is collapsed into one `Option` field named after
  the path (each such collapse is noted at the field);
* JavaScript objects used as string-keyed maps are association lists with
  assignment-overwrite semantics (`hmSet`);
* machine integers do not occur: all counters are small `Nat`s.
-/

/-- JavaScript `a || b` applied at optional (possibly-`undefined`) values.
Note that a *present* value is kept even when it is an empty array, since
arrays are truthy in JavaScript; only `undefined`/`null` falls through. -/
def jsOr {α : Type} (a b : Option α) : Option α :=
  match a with
  | some x => some x
  | none => b

/-- Truthiness of an optional JavaScript string: present and non-empty. -/
def jsTruthyStr : Option String → Bool
  | some s => !s.isEmpty
  | none => false

/-- Object-as-map (or `Map.set`) assignment `m[k] = v`: overwrite in place
if the key exists, else append. Models JavaScript property assignment. -/
def hmSet {α : Type} (m : List (String × α)) (k : String) (v : α) : List (String × α) :=
  if m.any (fun p => p.1 = k) then
    m.map (fun p => if p.1 = k then (k, v) else p)
  else
    m ++ [(k, v)]

/-- Object-as-map (or `Map.get`) read `m[k]`. -/
def hmGet {α : Type} (m : List (String × α)) (k : String) : Option α :=
  (m.find? (fun p => p.1 = k)).map (fun p => p.2)

/-- Object-as-map `delete m[k]` / `Map.delete` (exact-key removal). -/
def hmDel {α : Type} (m : List (String × α)) (k : String) : List (String × α) :=
  m.filter (fun p => p.1 ≠ k)

/-! ## Comment tree data model (background script, `extractCommentWithReplies`) -/

/-- Author data read from a comment or post node: `author?.displayName` and
`author?.originationNeighborhood?.displayLocation` (inner chain collapsed). -/
structure AuthorRec where
  displayName : Option String
  displayLocation : Option String
deriving DecidableEq, Repr

/-- One entry of `c.styledBody?.styles`; the field collapses the chain
`s.attributes?.action?.phoneNumber`. -/
structure StyleRec where
  phoneNumber : Option String
deriving DecidableEq, Repr

/-- Business page data (`entityPage`); fields collapse the chains
`categoryInfo?.displayCategory?.styledName?.text`, `faveCount?.value` and
`address?.fullAddress`. -/
structure Business where
  name : Option String
  category : Option String
  faves : Option Nat
  address : Option String
deriving DecidableEq, Repr

/-- One entry of `c.taggedContent`. -/
structure TaggedRec where
  entityPage : Option Business
deriving DecidableEq, Repr

/-- The GraphQL comment object `commentNode.comment` as read by
`extractCommentWithReplies`. The eight reply-path fields stand for, in the
priority order of the source:
`c.replies?.pagedComments?.edges`, `c.replies?.edges`,
`c.childComments?.pagedComments?.edges`, `c.childComments?.edges`,
`c.responses?.pagedComments?.edges`, `c.responses?.edges`,
`c.nestedComments?.pagedComments?.edges`, `c.nestedComments?.edges`.
Each edge list element stands for `replyEdge.node?.comment`, collapsed. -/
inductive GComment where
  | mk (author : Option AuthorRec) (body : Option String) (createdAt : Option String)
       (styles : Option (List StyleRec)) (taggedContent : Option (List TaggedRec))
       (repliesPagedEdges repliesEdges childPagedEdges childEdges
        responsesPagedEdges responsesEdges nestedPagedEdges nestedEdges :
         Option (List (Option GComment)))

/-- The extracted comment record built by `extractCommentWithReplies`:
`{author, location, body, createdAt, phone, business, level, replies}`. -/
inductive CommentT where
  | mk (author location body createdAt phone : Option String)
       (business : Option Business) (level : Nat) (replies : List CommentT)

/-- Projection: the `level` field of an extracted comment. -/
def CommentT.level : CommentT → Nat
  | .mk _ _ _ _ _ _ l _ => l

/-- Projection: the `replies` field of an extracted comment. -/
def CommentT.replies : CommentT → List CommentT
  | .mk _ _ _ _ _ _ _ r => r

/-- Phone extraction:
`c.styledBody?.styles?.find(s => s.attributes?.action?.phoneNumber)?.attributes?.action?.phoneNumber`
followed by the `phone || null` normalisation of the object literal. -/
def findPhone (styles : Option (List StyleRec)) : Option String :=
  match styles with
  | none => none
  | some l =>
    match l.find? (fun s => jsTruthyStr s.phoneNumber) with
    | none => none
    | some s => s.phoneNumber

/-- Business extraction `c.taggedContent?.[0]?.entityPage`; the source then
copies the record field by field (`biz ? {...} : null`), which under the
collapsed chains is the identity on the `Business` record. -/
def findBusiness (tc : Option (List TaggedRec)) : Option Business :=
  match tc with
  | none => none
  | some l =>
    match l.head? with
    | none => none
    | some t => t.entityPage

/-- The `repliesData` selection of `extractCommentWithReplies`: the
JavaScript `||` chain over the eight known reply paths, with final `|| []`.
A present-but-empty list short-circuits the chain (arrays are truthy). -/
def resolveRepliesData : GComment → List (Option GComment)
  | .mk _ _ _ _ _ rp re cp ce sp se np ne =>
    (jsOr rp (jsOr re (jsOr cp (jsOr ce (jsOr sp (jsOr se (jsOr np ne))))))).getD []

mutual

/-- Body of `extractCommentWithReplies` for a present comment object.
The nested `match` is the same first-defined-path selection as
`resolveRepliesData` (see `extractGC_eq`), written as a pattern match so the
recursion is structural. -/
def extractGC : GComment → Nat → CommentT
  | .mk author body createdAt styles taggedContent rp re cp ce sp se np ne, level =>
    .mk (author.bind (fun a => a.displayName))
        (author.bind (fun a => a.displayLocation))
        body createdAt
        (findPhone styles)
        (findBusiness taggedContent)
        level
        (match rp, re, cp, ce, sp, se, np, ne with
         | some l, _, _, _, _, _, _, _ => extractEdgeList l (level + 1)
         | none, some l, _, _, _, _, _, _ => extractEdgeList l (level + 1)
         | none, none, some l, _, _, _, _, _ => extractEdgeList l (level + 1)
         | none, none, none, some l, _, _, _, _ => extractEdgeList l (level + 1)
         | none, none, none, none, some l, _, _, _ => extractEdgeList l (level + 1)
         | none, none, none, none, none, some l, _, _ => extractEdgeList l (level + 1)
         | none, none, none, none, none, none, some l, _ => extractEdgeList l (level + 1)
         | none, none, none, none, none, none, none, some l => extractEdgeList l (level + 1)
         | none, none, none, none, none, none, none, none => [])

/-- The `for (const replyEdge of repliesData)` loop: extract each edge node
at the given level, skipping entries whose extraction returns `null`. -/
def extractEdgeList : List (Option GComment) → Nat → List CommentT
  | [], _ => []
  | node :: rest, lvl =>
    match node with
    | none => extractEdgeList rest lvl
    | some c => extractGC c lvl :: extractEdgeList rest lvl

end

/-- Top entry `extractCommentWithReplies(commentNode, level)`: returns
`null` when `commentNode?.comment` is absent. -/
def extractCommentWithReplies (node : Option GComment) (level : Nat) : Option CommentT :=
  node.map (fun c => extractGC c level)

/-- The function `countAllComments(comments)` of the background script. -/
def countAllComments : List CommentT → Nat
  | [] => 0
  | .mk _ _ _ _ _ _ _ rs :: rest =>
    (1 + (if rs.length > 0 then countAllComments rs else 0)) + countAllComments rest

mutual

/-- Modelled from the spec wording of `countAll`: a comment counts 1 plus
the recursive count of every descendant. -/
def nodesOfComment : CommentT → Nat
  | .mk _ _ _ _ _ _ _ rs => 1 + nodesOfForest rs

/-- Modelled from the spec wording: node count of a whole forest. -/
def nodesOfForest : List CommentT → Nat
  | [] => 0
  | c :: rest => nodesOfComment c + nodesOfForest rest

end

mutual

/-- Nesting-level invariant of an extracted comment: every reply carries
level exactly one greater than its parent, recursively. -/
def levelsOk : CommentT → Bool
  | .mk _ _ _ _ _ _ level replies => levelsOkList level replies

/-- Helper of `levelsOk` over a reply list with the parent level given. -/
def levelsOkList (parentLevel : Nat) : List CommentT → Bool
  | [] => true
  | c :: rest => (c.level == parentLevel + 1) && levelsOk c && levelsOkList parentLevel rest

end

/-- The eight reply paths of a comment node, in the priority order of the
source's `||` chain. -/
def replyPaths : GComment → List (Option (List (Option GComment)))
  | .mk _ _ _ _ _ rp re cp ce sp se np ne => [rp, re, cp, ce, sp, se, np, ne]

/-! ## Request-template capture (background script webRequest listeners) -/

/-- Which tracked endpoint a request URL matches:
`url.includes('/api/gql/searchPost')`, `url.includes('/api/gql/FeedItem')`,
or neither. -/
inductive UrlKind where
  | searchPost
  | feedItem
  | other
deriving DecidableEq, Repr

/-- A parsed request body. The only field the capture path ever reads is
`payload?.extensions?.persistedQuery?.sha256Hash` (collapsed); the rest of
the JSON value is opaque to the correlator. -/
structure Payload where
  sha256Hash : Option String
deriving DecidableEq, Repr

/-- An entry of the `pendingRequestBodies` map: `{type, payload}`. -/
structure PendingCapture where
  kind : UrlKind
  payload : Payload
deriving DecidableEq, Repr

/-- A captured request template `{hash, headers, payload, capturedAt}`. -/
structure Template where
  hash : Option String
  headers : List (String × String)
  payload : Payload
  capturedAt : Nat
deriving DecidableEq, Repr

/-- The `details` object seen by the `onBeforeRequest` listener.
`rawBody = none` models `details.requestBody?.raw` being absent;
`rawBody = some none` models a body whose `JSON.parse` throws;
`rawBody = some (some p)` models a body parsing to payload `p`. -/
structure BeforeRequestDetails where
  tabId : Int
  requestId : String
  rawBody : Option (Option Payload)
  url : UrlKind
deriving DecidableEq, Repr

/-- The `details` object seen by the `onSendHeaders` listener. -/
structure SendHeadersDetails where
  tabId : Int
  requestId : String
  requestHeaders : List (String × String)
deriving DecidableEq, Repr

/-- Observable events driving the capture correlator: the two webRequest
streams, the 5-second `setTimeout` expiry of a pending body, and the
`state.isRunning` toggle flipped by `startSearch`. -/
inductive CapEvent where
  | beforeRequest (d : BeforeRequestDetails)
  | sendHeaders (d : SendHeadersDetails)
  | pendingExpired (requestId : String)
  | setRunning (b : Bool)
deriving DecidableEq, Repr

/-- The background-script state touched by the two listeners: the
`pendingRequestBodies` map, `state.captured.searchPost` /
`state.captured.feedItem`, the session UTI and its capture time, the
`browser.storage.local` copies written by the listeners (`storedUti` for
the `uti` key, `storedTemplates` for the `capturedTemplates` key), the
`state.isRunning` flag, and a clock supplying `Date.now()`. -/
structure CapState where
  pending : List (String × PendingCapture)
  capturedSearchPost : Option Template
  capturedFeedItem : Option Template
  uti : Option String
  utiCapturedAt : Option Nat
  storedUti : Option String
  storedTemplates : Option (Option Template × Option Template)
  isRunning : Bool
  now : Nat
deriving DecidableEq, Repr

/-- The `headers` object built by the `onSendHeaders` listener:
`for (const header of details.requestHeaders) headers[header.name] = header.value`. -/
def buildHeaders (hs : List (String × String)) : List (String × String) :=
  hs.foldl (fun m p => hmSet m p.1 p.2) []

/-- The `onBeforeRequest` listener: guards in source order (extension's own
requests carry `tabId === -1`; missing raw body; URL not one of the two
tracked endpoints; parse failure; `state.isRunning`), then stores a
`PendingCapture` keyed by requestId. -/
def onBeforeRequestStep (s : CapState) (d : BeforeRequestDetails) : CapState :=
  if d.tabId = -1 then s
  else match d.rawBody with
  | none => s
  | some parsed =>
    if d.url = UrlKind.searchPost ∨ d.url = UrlKind.feedItem then
      match parsed with
      | none => s
      | some payload =>
        if s.isRunning then s
        else { s with pending := hmSet s.pending d.requestId ⟨d.url, payload⟩ }
    else s

/-- ASCII lowercasing of one character, as `toLowerCase()` behaves on the
ASCII header names in play. -/
def asciiLower (ch : Char) : Char :=
  if 'A' ≤ ch ∧ ch ≤ 'Z' then Char.ofNat (ch.toNat + 32) else ch

/-- ASCII lowercasing of a header name (`h.name.toLowerCase()`); header
names are ASCII, where this agrees with full Unicode lowercasing. -/
def strToLower (s : String) : String :=
  ⟨s.data.map asciiLower⟩

/-- The UTI block at the top of the `onSendHeaders` listener: a changed
non-empty `x-nd-uti` header value is captured into session state and
written to storage. -/
def utiStep (s : CapState) (d : SendHeadersDetails) : CapState :=
  match d.requestHeaders.find? (fun h => strToLower h.1 = "x-nd-uti") with
  | some hv =>
    if hv.2.isEmpty then s
    else if some hv.2 = s.uti then s
    else { s with uti := some hv.2, utiCapturedAt := some s.now, storedUti := some hv.2 }
  | none => s

/-- The `onSendHeaders` listener: ignores sentinel-originated events
(`tabId === -1`); runs the UTI block; then, if a pending body exists for
the requestId, consumes it, builds the full header map, and emits the
completed template of the pending kind, persisting both templates via
`persistTemplates()`. -/
def onSendHeadersStep (s : CapState) (d : SendHeadersDetails) : CapState :=
  if d.tabId = -1 then s
  else
    let s1 := utiStep s d
    match hmGet s1.pending d.requestId with
    | none => s1
    | some pending =>
      let s2 := { s1 with pending := hmDel s1.pending d.requestId }
      let template : Template :=
        ⟨pending.payload.sha256Hash, buildHeaders d.requestHeaders, pending.payload, s2.now⟩
      let s3 :=
        if pending.kind = UrlKind.searchPost then
          { s2 with capturedSearchPost := some template }
        else
          { s2 with capturedFeedItem := some template }
      { s3 with storedTemplates := some (s3.capturedSearchPost, s3.capturedFeedItem) }

/-- One step of the capture correlator. -/
def stepCapture (s : CapState) : CapEvent → CapState
  | .beforeRequest d => onBeforeRequestStep s d
  | .sendHeaders d => onSendHeadersStep s d
  | .pendingExpired r => { s with pending := hmDel s.pending r }
  | .setRunning b => { s with isRunning := b }

/-- Processing a whole event interleaving. -/
def runCapture (s : CapState) (es : List CapEvent) : CapState :=
  es.foldl stepCapture s

/-- The fresh-session initial state: nothing pending, no captured
templates, nothing persisted, no replay running. -/
def initCapState : CapState :=
  ⟨[], none, none, none, none, none, none, false, 0⟩

/-- The captured template slot for a request kind (the `other` kind has no
slot). -/
def capturedOf (s : CapState) : UrlKind → Option Template
  | .searchPost => s.capturedSearchPost
  | .feedItem => s.capturedFeedItem
  | .other => none

/-- Event recogniser: a body observation of kind `k` for requestId `r`. -/
def bodyObsFor (k : UrlKind) (r : String) : CapEvent → Bool
  | .beforeRequest d => d.requestId == r && d.url == k
  | _ => false

/-- Event recogniser: a header observation for requestId `r`. -/
def headerObsFor (r : String) : CapEvent → Bool
  | .sendHeaders d => d.requestId == r
  | _ => false

/-- Correlator invariant over the events processed so far: every pending
entry traces back to a body observation of its kind, and every captured
template traces back to a body observation and a header observation for
one shared requestId. -/
def CapInv (es : List CapEvent) (s : CapState) : Prop :=
  (∀ p ∈ s.pending,
    (p.2.kind = UrlKind.searchPost ∨ p.2.kind = UrlKind.feedItem) ∧
    es.any (bodyObsFor p.2.kind p.1) = true) ∧
  (∀ k t, capturedOf s k = some t →
    ∃ r, es.any (bodyObsFor k r) = true ∧ es.any (headerObsFor r) = true)

/-! ## Replay orchestration (background script `startSearch` and
`fetchThreadDetailsWithProgress`) -/

/-- The post object `response.data?.data?.feedItem?.post` as read by the
detail loop. `commentEdges` collapses `post.comments?.pagedComments?.edges`
(with each edge standing for `edge.node?.comment`); the `op` fields
collapse the same author/creation chains as for comments. -/
structure Post where
  author : Option AuthorRec
  subject : Option String
  body : Option String
  createdAt : Option String
  commentEdges : Option (List (Option GComment))

/-- The function `extractAllComments(post)` of the background script. -/
def extractAllComments (post : Post) : List CommentT :=
  (post.commentEdges.getD []).filterMap (fun node => extractCommentWithReplies node 0)

/-- A thread record as pushed by the detail loops:
`{postId, url, op: {author, location, subject, body, createdAt}, comments}`. -/
structure ThreadRec where
  postId : String
  url : String
  opAuthor : Option String
  opLocation : Option String
  opSubject : Option String
  opBody : Option String
  opCreatedAt : Option String
  comments : List CommentT

/-- Thread construction for a fetched post (shared verbatim by
`startSearch` and `fetchThreadDetailsWithProgress`). -/
def mkThread (postId : String) (post : Post) : ThreadRec :=
  { postId := postId
    url := "https://nextdoor.com/p/" ++ postId ++ "?view=detail"
    opAuthor := post.author.bind (fun a => a.displayName)
    opLocation := post.author.bind (fun a => a.displayLocation)
    opSubject := post.subject
    opBody := post.body
    opCreatedAt := post.createdAt
    comments := extractAllComments post }

/-- Outcome of one detail fetch, as observed by the loop body:
`fail` is `response.success === false` (carrying `response.error`),
`thrown` is an exception caught by the surrounding `try` block, and
`success` carries `response.data?.data?.feedItem?.post`, which may be
absent (`none`) even on a transport-level success. -/
inductive DetailResponse where
  | fail (error : String)
  | thrown (msg : String)
  | success (post : Option Post)

/-- Side-effect trace entries of a detail loop: the fetch message for one
postId, and the fixed 150 ms inter-request `setTimeout` delay. -/
inductive RunAction where
  | fetch (postId : String)
  | delay (ms : Nat)
deriving DecidableEq, Repr

/-- Mutable state threaded through the `startSearch` detail loop:
`threads`, `errors`, `totalComments`, the `state.progress` counters, and
the action trace. -/
structure RunState where
  threads : List ThreadRec
  errors : List (String × String)
  totalComments : Nat
  progressCurrent : Nat
  progressErrors : Nat
  trace : List RunAction

/-- Initial loop state of one `startSearch` run. -/
def initRunState : RunState :=
  ⟨[], [], 0, 0, 0, []⟩

/-- One iteration body of the `startSearch` detail loop (without the
trailing rate-limit delay): issue the fetch, then either record the error
(`response.success` false or a thrown exception) or, when a post object is
present, extract comments, add their count, and push the thread; a
transport success without a post object records nothing. Finally bump
`progress.current`. -/
def startSearchItem (s : RunState) (postId : String) (r : DetailResponse) : RunState :=
  let s0 := { s with trace := s.trace ++ [RunAction.fetch postId] }
  let s1 :=
    match r with
    | .fail e =>
      { s0 with errors := s0.errors ++ [(postId, e)], progressErrors := s0.progressErrors + 1 }
    | .thrown e =>
      { s0 with errors := s0.errors ++ [(postId, e)], progressErrors := s0.progressErrors + 1 }
    | .success none => s0
    | .success (some post) =>
      let comments := extractAllComments post
      { s0 with
        totalComments := s0.totalComments + countAllComments comments,
        threads := s0.threads ++ [mkThread postId post] }
  { s1 with progressCurrent := s1.progressCurrent + 1 }

/-- The `startSearch` detail loop over the remaining `(postId, response)`
pairs: after each item except the last, the 150 ms rate-limit delay runs. -/
def startSearchGo (s : RunState) : List (String × DetailResponse) → RunState
  | [] => s
  | (postId, r) :: rest =>
    let s1 := startSearchItem s postId r
    let s2 := if rest.isEmpty then s1 else { s1 with trace := s1.trace ++ [RunAction.delay 150] }
    startSearchGo s2 rest

/-- A whole `startSearch` detail phase over the extracted postIds paired
with the response each fetch produced. -/
def startSearchRun (items : List (String × DetailResponse)) : RunState :=
  startSearchGo initRunState items

/-- State threaded through the `fetchThreadDetailsWithProgress` loop (the
tool-caller variant): `threads`, its local `errors` list (dropped by the
caller), and the action trace. -/
structure FetchDetailsState where
  threads : List ThreadRec
  errors : List (String × String)
  trace : List RunAction

/-- One iteration body of the `fetchThreadDetailsWithProgress` loop:
identical error/no-post handling, but no comment counting and no progress
counters. -/
def fetchDetailsItem (s : FetchDetailsState) (postId : String) (r : DetailResponse) :
    FetchDetailsState :=
  let s0 := { s with trace := s.trace ++ [RunAction.fetch postId] }
  match r with
  | .fail e => { s0 with errors := s0.errors ++ [(postId, e)] }
  | .thrown e => { s0 with errors := s0.errors ++ [(postId, e)] }
  | .success none => s0
  | .success (some post) => { s0 with threads := s0.threads ++ [mkThread postId post] }

/-- The `fetchThreadDetailsWithProgress` loop with the same trailing
rate-limit placement. -/
def fetchDetailsGo (s : FetchDetailsState) : List (String × DetailResponse) → FetchDetailsState
  | [] => s
  | (postId, r) :: rest =>
    let s1 := fetchDetailsItem s postId r
    let s2 := if rest.isEmpty then s1 else { s1 with trace := s1.trace ++ [RunAction.delay 150] }
    fetchDetailsGo s2 rest

/-- A whole `fetchThreadDetailsWithProgress` run. -/
def fetchDetailsRun (items : List (String × DetailResponse)) : FetchDetailsState :=
  fetchDetailsGo ⟨[], [], []⟩ items

/-- Classifier: responses recorded into the error list. -/
def isFailure : DetailResponse → Bool
  | .fail _ => true
  | .thrown _ => true
  | .success _ => false

/-- Classifier: transport successes whose body has no post object. -/
def isNoPost : DetailResponse → Bool
  | .success none => true
  | _ => false

/-- Classifier: successes carrying a post object. -/
def hasPost : DetailResponse → Bool
  | .success (some _) => true
  | _ => false

/-! ## Replay-time header cleaning (content script `fetchFeedItem` /
`fetchSearch`) -/

/-- The header cleaning both content-script fetch helpers perform before
replaying: `{...headers}` then `delete` of `Host`, `Connection`,
`Content-Length` and `Cookie` (exact keys). -/
def cleanHeaders (headers : List (String × String)) : List (String × String) :=
  hmDel (hmDel (hmDel (hmDel headers "Host") "Connection") "Content-Length") "Cookie"

/-! ## Conversational agent tool loop (background script `handleChatMessage`) -/

/-- A structured tool call as returned by a provider. -/
structure ToolCall where
  id : String
  name : String
  arguments : String
deriving DecidableEq, Repr

/-- One `completionWithTools` result as inspected by the loop:
`text` is `response.type === 'text'`; `toolCall` is
`response.type === 'tool_call'` carrying `response.toolCalls` (which the
guard also requires to be present — `none` models a falsy `toolCalls`);
`other` is any unrecognised `response.type`. -/
inductive ModelResponse where
  | text (content : String)
  | toolCall (calls : Option (List ToolCall))
  | other (typ : String)

/-- The fixed iteration bound `MAX_TOOL_ITERATIONS` of `handleChatMessage`. -/
def MAX_TOOL_ITERATIONS : Nat := 3

/-- The fixed apologetic chunk sent when the bound is exhausted. -/
def APOLOGY_MESSAGE : String :=
  "I apologize, but I reached the maximum number of search iterations. Here is what I found based on available data."

/-- How one chat turn of the tool loop ends: a text completion (streamed
in slices and appended to history), the apology chunk after the bound is
exhausted, or a silent break on an unrecognised response type. No outcome
is an error. -/
inductive ChatOutcome where
  | completed (content : String)
  | apology (message : String)
  | stopped
deriving DecidableEq, Repr

/-- The `while (iterations < MAX_TOOL_ITERATIONS)` loop of
`handleChatMessage`, driven by the sequence of model responses (the result
of the i-th `completionWithTools` call). Returns the outcome and the total
number of `completionWithTools` calls made. -/
def chatLoopGo (responses : Nat → ModelResponse) (iterations : Nat) : ChatOutcome × Nat :=
  if iterations < MAX_TOOL_ITERATIONS then
    match responses iterations with
    | .text content => (.completed content, iterations + 1)
    | .toolCall (some _) => chatLoopGo responses (iterations + 1)
    | .toolCall none => (.stopped, iterations + 1)
    | .other _ => (.stopped, iterations + 1)
  else
    (.apology APOLOGY_MESSAGE, iterations)
termination_by MAX_TOOL_ITERATIONS - iterations

/-- A whole tool-loop run of `handleChatMessage`. -/
def handleChatToolLoop (responses : Nat → ModelResponse) : ChatOutcome × Nat :=
  chatLoopGo responses 0

/-- The fetch/delay trace a detail loop emits for a given item list: each
item contributes its fetch, and every item except the last is followed by
the fixed 150 ms delay. -/
def detailTrace : List (String × DetailResponse) → List RunAction
  | [] => []
  | (postId, _) :: rest =>
    [RunAction.fetch postId] ++ (if rest.isEmpty then [] else [RunAction.delay 150]) ++
      detailTrace rest

/-- Projection: the first reply path `c.replies?.pagedComments?.edges`. -/
def GComment.repliesPagedEdges : GComment → Option (List (Option GComment))
  | .mk _ _ _ _ _ rp _ _ _ _ _ _ _ => rp

/-- Projection: the fourth reply path `c.childComments?.edges`. -/
def GComment.childEdges : GComment → Option (List (Option GComment))
  | .mk _ _ _ _ _ _ _ _ ce _ _ _ _ => ce

/-- Modelled from the spec: reply resolution that uses the first path
yielding a *non-empty* list, passing over paths holding an empty list in
favour of a later non-empty one. -/
def resolveRepliesSpec (c : GComment) : List (Option GComment) :=
  ((replyPaths c).findSome? (fun p =>
    p.bind (fun l => if l.isEmpty then none else some l))).getD []

/-- A comment node with no fields set, used as a reply leaf. -/
def c6Leaf : GComment :=
  .mk none none none none none none none none none none none none none

/-- A comment node whose first reply path holds an *empty* list while its
fourth path (`childComments.edges`) holds one reply. -/
def c6Node : GComment :=
  .mk none none none none none (some []) none none (some [some c6Leaf]) none none none none

/-! ## Helper lemmas -/

theorem mem_hmSet {α : Type} {m : List (String × α)} {k : String} {v : α} {p : String × α}
    (h : p ∈ hmSet m k v) : p ∈ m ∨ p = (k, v) := by
  unfold hmSet at h
  split at h
  · rcases List.mem_map.mp h with ⟨q, hq, hfq⟩
    by_cases hk : q.1 = k
    · right; rw [← hfq]; simp [hk]
    · left; rw [← hfq]; simp only [hk, if_false]; exact hq
  · rcases List.mem_append.mp h with h1 | h1
    · exact Or.inl h1
    · right; simpa using h1

theorem mem_hmDel {α : Type} {m : List (String × α)} {k : String} {p : String × α}
    (h : p ∈ hmDel m k) : p ∈ m :=
  List.mem_of_mem_filter h

theorem hmGet_mem {α : Type} {m : List (String × α)} {k : String} {v : α}
    (h : hmGet m k = some v) : (k, v) ∈ m := by
  unfold hmGet at h
  rcases Option.map_eq_some'.mp h with ⟨q, hq, hv⟩
  have hp := List.find?_some hq
  have hmem := List.mem_of_find?_eq_some hq
  have : q = (k, v) := by
    cases q with
    | mk q1 q2 =>
      simp at hp hv
      simp [hp, hv]
  exact this ▸ hmem

theorem hmGet_cons {α : Type} (p : String × α) (rest : List (String × α)) (j : String) :
    hmGet (p :: rest) j = if p.1 = j then some p.2 else hmGet rest j := by
  by_cases hj : p.1 = j <;> simp [hmGet, List.find?_cons, hj]

theorem hmDel_cons {α : Type} (p : String × α) (rest : List (String × α)) (k : String) :
    hmDel (p :: rest) k = if p.1 = k then hmDel rest k else p :: hmDel rest k := by
  by_cases hk : p.1 = k <;> simp [hmDel, List.filter_cons, hk]

theorem hmGet_hmDel_self {α : Type} (m : List (String × α)) (k : String) :
    hmGet (hmDel m k) k = none := by
  induction m with
  | nil => simp [hmGet, hmDel]
  | cons p rest ih =>
    rw [hmDel_cons]
    by_cases hk : p.1 = k
    · rw [if_pos hk]; exact ih
    · rw [if_neg hk, hmGet_cons, if_neg hk]; exact ih

theorem hmGet_hmDel_ne {α : Type} (m : List (String × α)) (k j : String) (h : j ≠ k) :
    hmGet (hmDel m k) j = hmGet m j := by
  induction m with
  | nil => simp [hmGet, hmDel]
  | cons p rest ih =>
    rw [hmDel_cons]
    by_cases hk : p.1 = k
    · have hj : p.1 ≠ j := by rw [hk]; exact fun hh => h hh.symm
      rw [if_pos hk, hmGet_cons, if_neg hj]; exact ih
    · rw [if_neg hk, hmGet_cons, hmGet_cons]
      by_cases hj : p.1 = j
      · rw [if_pos hj, if_pos hj]
      · rw [if_neg hj, if_neg hj]; exact ih

theorem extractGC_eq (c : GComment) (level : Nat) :
    extractGC c level =
      match c with
      | .mk author body createdAt styles taggedContent _ _ _ _ _ _ _ _ =>
        .mk (author.bind (fun a => a.displayName))
            (author.bind (fun a => a.displayLocation))
            body createdAt (findPhone styles) (findBusiness taggedContent) level
            (extractEdgeList (resolveRepliesData c) (level + 1)) := by
  match c with
  | .mk author body createdAt styles taggedContent rp re cp ce sp se np ne =>
    cases rp with
    | some l => simp [extractGC, resolveRepliesData, jsOr]
    | none =>
    cases re with
    | some l => simp [extractGC, resolveRepliesData, jsOr]
    | none =>
    cases cp with
    | some l => simp [extractGC, resolveRepliesData, jsOr]
    | none =>
    cases ce with
    | some l => simp [extractGC, resolveRepliesData, jsOr]
    | none =>
    cases sp with
    | some l => simp [extractGC, resolveRepliesData, jsOr]
    | none =>
    cases se with
    | some l => simp [extractGC, resolveRepliesData, jsOr]
    | none =>
    cases np with
    | some l => simp [extractGC, resolveRepliesData, jsOr]
    | none =>
    cases ne with
    | some l => simp [extractGC, resolveRepliesData, jsOr]
    | none => simp [extractGC, resolveRepliesData, jsOr, extractEdgeList]

theorem resolveRepliesData_eq_findSome (c : GComment) :
    resolveRepliesData c = ((replyPaths c).findSome? id).getD [] := by
  match c with
  | .mk author body createdAt styles taggedContent rp re cp ce sp se np ne =>
    cases rp <;> cases re <;> cases cp <;> cases ce <;>
      cases sp <;> cases se <;> cases np <;> cases ne <;>
        simp [resolveRepliesData, replyPaths, jsOr, List.findSome?]

theorem sizeOf_lt_of_mem_resolve {c : GComment} {o : Option GComment}
    (h : o ∈ resolveRepliesData c) : sizeOf o < sizeOf c := by
  match c with
  | .mk a b cr st tc rp re cp ce sp se np ne =>
    cases rp with
    | some l => simp [resolveRepliesData, jsOr] at h
                have hlt := List.sizeOf_lt_of_mem h; simp; omega
    | none =>
    cases re with
    | some l => simp [resolveRepliesData, jsOr] at h
                have hlt := List.sizeOf_lt_of_mem h; simp; omega
    | none =>
    cases cp with
    | some l => simp [resolveRepliesData, jsOr] at h
                have hlt := List.sizeOf_lt_of_mem h; simp; omega
    | none =>
    cases ce with
    | some l => simp [resolveRepliesData, jsOr] at h
                have hlt := List.sizeOf_lt_of_mem h; simp; omega
    | none =>
    cases sp with
    | some l => simp [resolveRepliesData, jsOr] at h
                have hlt := List.sizeOf_lt_of_mem h; simp; omega
    | none =>
    cases se with
    | some l => simp [resolveRepliesData, jsOr] at h
                have hlt := List.sizeOf_lt_of_mem h; simp; omega
    | none =>
    cases np with
    | some l => simp [resolveRepliesData, jsOr] at h
                have hlt := List.sizeOf_lt_of_mem h; simp; omega
    | none =>
    cases ne with
    | some l => simp [resolveRepliesData, jsOr] at h
                have hlt := List.sizeOf_lt_of_mem h; simp; omega
    | none => simp [resolveRepliesData, jsOr] at h

theorem extractGC_level (c : GComment) (level : Nat) :
    (extractGC c level).level = level := by
  rw [extractGC_eq]
  match c with
  | .mk a b cr st tc rp re cp ce sp se np ne => simp [CommentT.level]

theorem extractGC_replies (c : GComment) (level : Nat) :
    (extractGC c level).replies = extractEdgeList (resolveRepliesData c) (level + 1) := by
  rw [extractGC_eq]
  match c with
  | .mk a b cr st tc rp re cp ce sp se np ne => simp [CommentT.replies]

theorem extractEdgeList_eq_filterMap (l : List (Option GComment)) (lvl : Nat) :
    extractEdgeList l lvl = l.filterMap (fun node => node.map (fun c => extractGC c lvl)) := by
  induction l with
  | nil => simp [extractEdgeList]
  | cons head tail ih =>
    cases head with
    | none => simp [extractEdgeList, ih]
    | some c => simp [extractEdgeList, ih]

theorem levelsOk_extractGC (n : Nat) :
    ∀ (c : GComment), sizeOf c ≤ n → ∀ level, levelsOk (extractGC c level) = true := by
  induction n with
  | zero =>
    intro c h level
    match c with
    | .mk a b cr st tc rp re cp ce sp se np ne => simp at h
  | succ n ih =>
    intro c h level
    have haux : ∀ (l : List (Option GComment)), (∀ o ∈ l, sizeOf o < sizeOf c) →
        ∀ parent, levelsOkList parent (extractEdgeList l (parent + 1)) = true := by
      intro l
      induction l with
      | nil => intro _ parent; simp [extractEdgeList, levelsOkList]
      | cons head tail ihl =>
        intro hmem parent
        cases head with
        | none =>
          rw [extractEdgeList]
          exact ihl (fun o ho => hmem o (List.mem_cons_of_mem _ ho)) parent
        | some cc =>
          rw [extractEdgeList, levelsOkList]
          have hsz : sizeOf cc ≤ n := by
            have := hmem (some cc) (List.mem_cons_self _ _)
            simp at this
            omega
          rw [extractGC_level]
          simp only [beq_self_eq_true, Bool.true_and]
          rw [ih cc hsz (parent + 1),
            ihl (fun o ho => hmem o (List.mem_cons_of_mem _ ho)) parent]
          rfl
    rw [levelsOk.eq_def]
    match hc : extractGC c level with
    | .mk a loc b cr ph biz lvl rs =>
      have hrs : rs = extractEdgeList (resolveRepliesData c) (level + 1) := by
        have := extractGC_replies c level
        rw [hc] at this
        simpa [CommentT.replies] using this
      have hlvl : lvl = level := by
        have := extractGC_level c level
        rw [hc] at this
        simpa [CommentT.level] using this
      rw [hrs, hlvl]
      exact haux _ (fun o ho => sizeOf_lt_of_mem_resolve ho) level

theorem countAll_eq_nodes (n : Nat) :
    ∀ cs : List CommentT, sizeOf cs ≤ n → countAllComments cs = nodesOfForest cs := by
  induction n with
  | zero =>
    intro cs h
    cases cs with
    | nil => simp [countAllComments, nodesOfForest]
    | cons c rest => simp at h
  | succ n ih =>
    intro cs h
    cases cs with
    | nil => simp [countAllComments, nodesOfForest]
    | cons c rest =>
      cases c with
      | mk a loc b cr ph biz lvl rs =>
        have h1 : sizeOf rs ≤ n := by simp at h; omega
        have h2 : sizeOf rest ≤ n := by simp at h; omega
        rw [countAllComments, nodesOfForest, nodesOfComment, ih rs h1, ih rest h2]
        by_cases hrs : rs.length > 0
        · simp [hrs]
        · simp at hrs
          simp [hrs, nodesOfForest]

theorem utiStep_parts (s : CapState) (d : SendHeadersDetails) :
    (utiStep s d).pending = s.pending ∧
    (utiStep s d).capturedSearchPost = s.capturedSearchPost ∧
    (utiStep s d).capturedFeedItem = s.capturedFeedItem ∧
    (utiStep s d).now = s.now := by
  unfold utiStep
  cases hf : d.requestHeaders.find? (fun h => strToLower h.1 = "x-nd-uti") with
  | none => exact ⟨rfl, rfl, rfl, rfl⟩
  | some hv =>
    by_cases h1 : hv.2.isEmpty <;> by_cases h2 : some hv.2 = s.uti <;> simp [h1, h2]

theorem onBeforeRequestStep_cases (s : CapState) (d : BeforeRequestDetails) :
    onBeforeRequestStep s d = s ∨
    ∃ payload, d.rawBody = some (some payload) ∧
      (d.url = UrlKind.searchPost ∨ d.url = UrlKind.feedItem) ∧
      onBeforeRequestStep s d =
        { s with pending := hmSet s.pending d.requestId ⟨d.url, payload⟩ } := by
  by_cases h1 : d.tabId = -1
  · left; simp [onBeforeRequestStep, h1]
  · cases hrb : d.rawBody with
    | none => left; simp [onBeforeRequestStep, h1, hrb]
    | some parsed =>
      by_cases h2 : d.url = UrlKind.searchPost ∨ d.url = UrlKind.feedItem
      · cases parsed with
        | none => left; simp [onBeforeRequestStep, h1, hrb, h2]
        | some payload =>
          by_cases h3 : s.isRunning
          · left; simp [onBeforeRequestStep, h1, hrb, h2, h3]
          · right
            exact ⟨payload, rfl, h2, by simp [onBeforeRequestStep, h1, hrb, h2, h3]⟩
      · left; simp [onBeforeRequestStep, h1, hrb, h2]

theorem onSendHeadersStep_cases (s : CapState) (d : SendHeadersDetails) :
    ((onSendHeadersStep s d).pending = s.pending ∨
     (onSendHeadersStep s d).pending = hmDel s.pending d.requestId) ∧
    (∀ k t, capturedOf (onSendHeadersStep s d) k = some t →
      capturedOf s k = some t ∨
      ∃ pc, hmGet s.pending d.requestId = some pc ∧
        ((pc.kind = UrlKind.searchPost ∧ k = UrlKind.searchPost) ∨
         (pc.kind ≠ UrlKind.searchPost ∧ k = UrlKind.feedItem))) := by
  obtain ⟨hup, hucs, hucf, hun⟩ := utiStep_parts s d
  by_cases h1 : d.tabId = -1
  · constructor
    · left; simp [onSendHeadersStep, h1]
    · intro k t ht; left; simpa [onSendHeadersStep, h1] using ht
  · cases hg : hmGet (utiStep s d).pending d.requestId with
    | none =>
      have hstep : onSendHeadersStep s d = utiStep s d := by
        simp [onSendHeadersStep, h1, hg]
      constructor
      · left; rw [hstep, hup]
      · intro k t ht
        left
        rw [hstep] at ht
        cases k with
        | searchPost => rw [capturedOf] at ht ⊢; rw [← hucs]; exact ht
        | feedItem => rw [capturedOf] at ht ⊢; rw [← hucf]; exact ht
        | other => rw [capturedOf] at ht ⊢; exact ht
    | some pc =>
      have hg0 : hmGet s.pending d.requestId = some pc := by rw [← hup]; exact hg
      by_cases hk : pc.kind = UrlKind.searchPost
      · have hstep : onSendHeadersStep s d =
            { utiStep s d with
              pending := hmDel (utiStep s d).pending d.requestId,
              capturedSearchPost :=
                some ⟨pc.payload.sha256Hash, buildHeaders d.requestHeaders,
                      pc.payload, (utiStep s d).now⟩,
              storedTemplates :=
                some (some ⟨pc.payload.sha256Hash, buildHeaders d.requestHeaders,
                            pc.payload, (utiStep s d).now⟩,
                      (utiStep s d).capturedFeedItem) } := by
          simp [onSendHeadersStep, h1, hg, hk]
        constructor
        · right; rw [hstep]; simp [hup]
        · intro k t ht
          rw [hstep] at ht
          cases k with
          | searchPost => exact Or.inr ⟨pc, hg0, Or.inl ⟨hk, rfl⟩⟩
          | feedItem =>
            left; rw [capturedOf] at ht ⊢; simp at ht; rw [← hucf]; exact ht
          | other => rw [capturedOf] at ht; exact absurd ht (by simp)
      · have hstep : onSendHeadersStep s d =
            { utiStep s d with
              pending := hmDel (utiStep s d).pending d.requestId,
              capturedFeedItem :=
                some ⟨pc.payload.sha256Hash, buildHeaders d.requestHeaders,
                      pc.payload, (utiStep s d).now⟩,
              storedTemplates :=
                some ((utiStep s d).capturedSearchPost,
                      some ⟨pc.payload.sha256Hash, buildHeaders d.requestHeaders,
                            pc.payload, (utiStep s d).now⟩) } := by
          simp [onSendHeadersStep, h1, hg, hk]
        constructor
        · right; rw [hstep]; simp [hup]
        · intro k t ht
          rw [hstep] at ht
          cases k with
          | feedItem => exact Or.inr ⟨pc, hg0, Or.inr ⟨hk, rfl⟩⟩
          | searchPost =>
            left; rw [capturedOf] at ht ⊢; simp at ht; rw [← hucs]; exact ht
          | other => rw [capturedOf] at ht; exact absurd ht (by simp)

theorem capInv_step {es : List CapEvent} {s : CapState} (hInv : CapInv es s) (e : CapEvent) :
    CapInv (es ++ [e]) (stepCapture s e) := by
  obtain ⟨hPend, hCap⟩ := hInv
  have hmono : ∀ (f : CapEvent → Bool), es.any f = true → (es ++ [e]).any f = true := by
    intro f hf; simp [List.any_append, hf]
  cases e with
  | setRunning b =>
    refine ⟨fun p hp => ?_, fun k t ht => ?_⟩
    · obtain ⟨hkind, hobs⟩ := hPend p hp
      exact ⟨hkind, hmono _ hobs⟩
    · obtain ⟨r, h1, h2⟩ := hCap k t ht
      exact ⟨r, hmono _ h1, hmono _ h2⟩
  | pendingExpired r0 =>
    refine ⟨fun p hp => ?_, fun k t ht => ?_⟩
    · obtain ⟨hkind, hobs⟩ := hPend p (mem_hmDel hp)
      exact ⟨hkind, hmono _ hobs⟩
    · obtain ⟨r, h1, h2⟩ := hCap k t ht
      exact ⟨r, hmono _ h1, hmono _ h2⟩
  | beforeRequest d =>
    show CapInv _ (onBeforeRequestStep s d)
    rcases onBeforeRequestStep_cases s d with heq | ⟨payload, hrb, hurl, heq⟩ <;> rw [heq]
    · refine ⟨fun p hp => ?_, fun k t ht => ?_⟩
      · obtain ⟨hkind, hobs⟩ := hPend p hp
        exact ⟨hkind, hmono _ hobs⟩
      · obtain ⟨r, h1, h2⟩ := hCap k t ht
        exact ⟨r, hmono _ h1, hmono _ h2⟩
    · refine ⟨fun p hp => ?_, fun k t ht => ?_⟩
      · rcases mem_hmSet hp with hold | hnew
        · obtain ⟨hkind, hobs⟩ := hPend p hold
          exact ⟨hkind, hmono _ hobs⟩
        · subst hnew
          refine ⟨hurl, ?_⟩
          simp [List.any_append, bodyObsFor]
      · have ht0 : capturedOf s k = some t := by
          cases k <;> (try simp [capturedOf] at ht) <;> exact ht
        obtain ⟨r, h1, h2⟩ := hCap k t ht0
        exact ⟨r, hmono _ h1, hmono _ h2⟩
  | sendHeaders d =>
    show CapInv _ (onSendHeadersStep s d)
    obtain ⟨hpendCases, hcapCases⟩ := onSendHeadersStep_cases s d
    refine ⟨fun p hp => ?_, fun k t ht => ?_⟩
    · rcases hpendCases with hpe | hpe
      · rw [hpe] at hp
        obtain ⟨hkind, hobs⟩ := hPend p hp
        exact ⟨hkind, hmono _ hobs⟩
      · rw [hpe] at hp
        obtain ⟨hkind, hobs⟩ := hPend p (mem_hmDel hp)
        exact ⟨hkind, hmono _ hobs⟩
    · rcases hcapCases k t ht with hold | ⟨pc, hg, hkind⟩
      · obtain ⟨r, h1, h2⟩ := hCap k t hold
        exact ⟨r, hmono _ h1, hmono _ h2⟩
      · have hmem := hmGet_mem hg
        obtain ⟨hkinds, hobs⟩ := hPend _ hmem
        have hkk : pc.kind = k := by
          rcases hkind with ⟨ha, hb⟩ | ⟨ha, hb⟩
          · rw [ha, hb]
          · rcases hkinds with hc | hc
            · exact absurd hc ha
            · rw [hc, hb]
        refine ⟨d.requestId, ?_, ?_⟩
        · rw [← hkk]; exact hmono _ hobs
        · simp [List.any_append, headerObsFor]

theorem capInv_run (es : List CapEvent) :
    ∀ (es0 : List CapEvent) (s : CapState), CapInv es0 s →
      CapInv (es0 ++ es) (runCapture s es) := by
  induction es with
  | nil => intro es0 s h; simpa [runCapture] using h
  | cons e rest ih =>
    intro es0 s h
    have hstep := capInv_step h e
    have := ih (es0 ++ [e]) (stepCapture s e) hstep
    simpa [runCapture, List.foldl_cons, List.append_assoc] using this

theorem capInv_init : CapInv [] initCapState := by
  constructor
  · intro p hp; simp [initCapState] at hp
  · intro k t ht; cases k <;> simp [initCapState, capturedOf] at ht

theorem detailTrace_eq_intersperse (items : List (String × DetailResponse)) :
    detailTrace items =
      List.intersperse (RunAction.delay 150) (items.map (fun pr => RunAction.fetch pr.1)) := by
  induction items with
  | nil => simp [detailTrace]
  | cons hd tl ih =>
    cases hd with
    | mk pid r =>
      cases tl with
      | nil => simp [detailTrace]
      | cons hd2 tl2 =>
        rw [detailTrace]
        simp only [List.isEmpty_cons, if_false]
        rw [ih]
        simp [List.intersperse, List.map_cons]

theorem startSearchGo_parts (items : List (String × DetailResponse)) :
    ∀ s : RunState,
      (startSearchGo s items).threads =
        s.threads ++ items.filterMap (fun pr =>
          match pr.2 with
          | .success (some post) => some (mkThread pr.1 post)
          | _ => none) ∧
      (startSearchGo s items).errors =
        s.errors ++ items.filterMap (fun pr =>
          match pr.2 with
          | .fail e => some (pr.1, e)
          | .thrown e => some (pr.1, e)
          | _ => none) ∧
      (startSearchGo s items).totalComments =
        s.totalComments + (items.map (fun pr =>
          match pr.2 with
          | .success (some post) => countAllComments (extractAllComments post)
          | _ => 0)).sum ∧
      (startSearchGo s items).trace = s.trace ++ detailTrace items := by
  induction items with
  | nil => intro s; simp [startSearchGo, detailTrace]
  | cons hd tl ih =>
    intro s
    cases hd with
    | mk pid r =>
      rw [startSearchGo]
      obtain ⟨iht, ihe, ihc, ihtr⟩ :=
        ih (if tl.isEmpty then startSearchItem s pid r
            else { startSearchItem s pid r with
                   trace := (startSearchItem s pid r).trace ++ [RunAction.delay 150] })
      constructor
      · rw [iht]
        cases r with
        | fail e => simp [startSearchItem]; split <;> simp
        | thrown e => simp [startSearchItem]; split <;> simp
        | success post =>
          cases post with
          | none => simp [startSearchItem]; split <;> simp
          | some p => split <;> simp [startSearchItem]
      · constructor
        · rw [ihe]
          cases r with
          | fail e => split <;> simp [startSearchItem]
          | thrown e => split <;> simp [startSearchItem]
          | success post =>
            cases post with
            | none => simp [startSearchItem]; split <;> simp
            | some p => split <;> simp [startSearchItem]
        · constructor
          · rw [ihc]
            cases r with
            | fail e => split <;> simp [startSearchItem]
            | thrown e => split <;> simp [startSearchItem]
            | success post =>
              cases post with
              | none => simp [startSearchItem]; split <;> simp
              | some p => split <;> simp [startSearchItem] <;> omega
          · rw [ihtr, detailTrace]
            cases r with
            | fail e => split <;> simp_all [startSearchItem]
            | thrown e => split <;> simp_all [startSearchItem]
            | success post =>
              cases post with
              | none => split <;> simp_all [startSearchItem]
              | some p => split <;> simp_all [startSearchItem]

theorem fetchDetailsGo_parts (items : List (String × DetailResponse)) :
    ∀ s : FetchDetailsState,
      (fetchDetailsGo s items).threads =
        s.threads ++ items.filterMap (fun pr =>
          match pr.2 with
          | .success (some post) => some (mkThread pr.1 post)
          | _ => none) ∧
      (fetchDetailsGo s items).errors =
        s.errors ++ items.filterMap (fun pr =>
          match pr.2 with
          | .fail e => some (pr.1, e)
          | .thrown e => some (pr.1, e)
          | _ => none) ∧
      (fetchDetailsGo s items).trace = s.trace ++ detailTrace items := by
  induction items with
  | nil => intro s; simp [fetchDetailsGo, detailTrace]
  | cons hd tl ih =>
    intro s
    cases hd with
    | mk pid r =>
      rw [fetchDetailsGo]
      obtain ⟨iht, ihe, ihtr⟩ :=
        ih (if tl.isEmpty then fetchDetailsItem s pid r
            else { fetchDetailsItem s pid r with
                   trace := (fetchDetailsItem s pid r).trace ++ [RunAction.delay 150] })
      refine ⟨?_, ?_, ?_⟩
      · rw [iht]
        cases r with
        | fail e => split <;> simp [fetchDetailsItem]
        | thrown e => split <;> simp [fetchDetailsItem]
        | success post =>
          cases post with
          | none => split <;> simp [fetchDetailsItem]
          | some p => split <;> simp [fetchDetailsItem]
      · rw [ihe]
        cases r with
        | fail e => split <;> simp [fetchDetailsItem]
        | thrown e => split <;> simp [fetchDetailsItem]
        | success post =>
          cases post with
          | none => split <;> simp [fetchDetailsItem]
          | some p => split <;> simp [fetchDetailsItem]
      · rw [ihtr, detailTrace]
        cases r with
        | fail e => split <;> simp_all [fetchDetailsItem]
        | thrown e => split <;> simp_all [fetchDetailsItem]
        | success post =>
          cases post with
          | none => split <;> simp_all [fetchDetailsItem]
          | some p => split <;> simp_all [fetchDetailsItem]

theorem length_filterMap_thread (items : List (String × DetailResponse)) :
    (items.filterMap (fun pr =>
      match pr.2 with
      | .success (some post) => some (mkThread pr.1 post)
      | _ => none)).length = items.countP (fun pr => hasPost pr.2) := by
  induction items with
  | nil => simp
  | cons hd tl ih =>
    cases hd with
    | mk pid r =>
      cases r with
      | fail e => simpa [List.countP_cons, hasPost] using ih
      | thrown e => simpa [List.countP_cons, hasPost] using ih
      | success post =>
        cases post with
        | none => simpa [List.countP_cons, hasPost] using ih
        | some p => simp [List.countP_cons, hasPost, ih]

theorem length_filterMap_error (items : List (String × DetailResponse)) :
    (items.filterMap (fun pr =>
      match pr.2 with
      | .fail e => some (pr.1, e)
      | .thrown e => some (pr.1, e)
      | _ => none)).length = items.countP (fun pr => isFailure pr.2) := by
  induction items with
  | nil => simp
  | cons hd tl ih =>
    cases hd with
    | mk pid r =>
      cases r with
      | fail e => simp [List.countP_cons, isFailure, ih]
      | thrown e => simp [List.countP_cons, isFailure, ih]
      | success post => simpa [List.countP_cons, isFailure] using ih

theorem countP_trichotomy (items : List (String × DetailResponse)) :
    items.countP (fun pr => hasPost pr.2) + items.countP (fun pr => isFailure pr.2) +
      items.countP (fun pr => isNoPost pr.2) = items.length := by
  induction items with
  | nil => simp
  | cons hd tl ih =>
    cases hd with
    | mk pid r =>
      cases r with
      | fail e => simp [List.countP_cons, isFailure, hasPost, isNoPost] at ih ⊢; omega
      | thrown e => simp [List.countP_cons, isFailure, hasPost, isNoPost] at ih ⊢; omega
      | success post =>
        cases post with
        | none => simp [List.countP_cons, isFailure, hasPost, isNoPost] at ih ⊢; omega
        | some p => simp [List.countP_cons, isFailure, hasPost, isNoPost] at ih ⊢; omega

theorem sum_counts_eq (items : List (String × DetailResponse)) :
    ((items.filterMap (fun pr =>
        match pr.2 with
        | .success (some post) => some (mkThread pr.1 post)
        | _ => none)).map (fun t => countAllComments t.comments)).sum =
      (items.map (fun pr =>
        match pr.2 with
        | .success (some post) => countAllComments (extractAllComments post)
        | _ => 0)).sum := by
  induction items with
  | nil => simp
  | cons hd tl ih =>
    cases hd with
    | mk pid r =>
      cases r with
      | fail e => simpa using ih
      | thrown e => simpa using ih
      | success post =>
        cases post with
        | none => simpa using ih
        | some p =>
          simp only [List.filterMap_cons, List.map_cons, List.sum_cons]
          rw [show (mkThread pid p).comments = extractAllComments p from rfl, ih]

theorem chatLoopGo_calls_le (responses : Nat → ModelResponse) (n : Nat) :
    ∀ iterations, MAX_TOOL_ITERATIONS - iterations ≤ n →
      iterations ≤ MAX_TOOL_ITERATIONS →
      (chatLoopGo responses iterations).2 ≤ MAX_TOOL_ITERATIONS := by
  induction n with
  | zero =>
    intro it h1 h2
    rw [chatLoopGo]
    have hnlt : ¬ it < MAX_TOOL_ITERATIONS := by omega
    simp only [hnlt, if_false]
    exact h2
  | succ n ih =>
    intro it h1 h2
    rw [chatLoopGo]
    by_cases hlt : it < MAX_TOOL_ITERATIONS
    · simp only [hlt, if_true]
      cases hr : responses it with
      | text content => simpa using hlt
      | toolCall calls =>
        cases calls with
        | none => simpa using hlt
        | some cs => exact ih (it + 1) (by omega) (by omega)
      | other typ => simpa using hlt
    · simp only [hlt, if_false]
      exact h2

theorem chatLoopGo_allTool (responses : Nat → ModelResponse)
    (hall : ∀ i, ∃ calls, responses i = ModelResponse.toolCall (some calls)) (n : Nat) :
    ∀ iterations, MAX_TOOL_ITERATIONS - iterations ≤ n →
      iterations ≤ MAX_TOOL_ITERATIONS →
      chatLoopGo responses iterations =
        (ChatOutcome.apology APOLOGY_MESSAGE, MAX_TOOL_ITERATIONS) := by
  induction n with
  | zero =>
    intro it h1 h2
    rw [chatLoopGo]
    have hit : it = MAX_TOOL_ITERATIONS := by omega
    simp [hit]
  | succ n ih =>
    intro it h1 h2
    rw [chatLoopGo]
    by_cases hlt : it < MAX_TOOL_ITERATIONS
    · obtain ⟨cs, hcs⟩ := hall it
      simp only [hlt, if_true, hcs]
      exact ih (it + 1) (by omega) (by omega)
    · have hit : it = MAX_TOOL_ITERATIONS := by omega
      simp [hlt, hit]

/-! ## Claim theorems -/

/-- C1: for every requestId, a RequestTemplate is produced only when both a
body observation and a matching header observation occurred for that same
requestId, for any interleaving of the two observation streams; a
header-only or body-only interleaving never yields a template. -/
theorem c1_template_requires_both_observations (es : List CapEvent) (k : UrlKind) (t : Template)
    (h : capturedOf (runCapture initCapState es) k = some t) :
    ∃ r, es.any (bodyObsFor k r) = true ∧ es.any (headerObsFor r) = true := by
  have hinv := capInv_run es [] initCapState capInv_init
  rw [List.nil_append] at hinv
  exact hinv.2 k t h

/-- C1 witness: a concrete body+header interleaving that produces a
searchPost template, run through the theorem. -/
theorem c1_template_requires_both_observations_witness :
    ∃ r,
      ([CapEvent.beforeRequest ⟨1, "r1", some (some ⟨some "h"⟩), UrlKind.searchPost⟩,
        CapEvent.sendHeaders ⟨1, "r1", [("Cookie", "sid=1")]⟩].any
          (bodyObsFor UrlKind.searchPost r)) = true ∧
      ([CapEvent.beforeRequest ⟨1, "r1", some (some ⟨some "h"⟩), UrlKind.searchPost⟩,
        CapEvent.sendHeaders ⟨1, "r1", [("Cookie", "sid=1")]⟩].any
          (headerObsFor r)) = true :=
  c1_template_requires_both_observations
    [CapEvent.beforeRequest ⟨1, "r1", some (some ⟨some "h"⟩), UrlKind.searchPost⟩,
     CapEvent.sendHeaders ⟨1, "r1", [("Cookie", "sid=1")]⟩]
    UrlKind.searchPost
    ⟨some "h", [("Cookie", "sid=1")], ⟨some "h"⟩, 0⟩
    (by decide)

/-- C2 counterexample: one identifier whose fetch succeeds at the transport
level but whose response has no post object. No fetch fails (K = 0), yet
`threads.length` is 0, not N - K = 1. -/
theorem c2_counterexample :
    ([("a", DetailResponse.success none)].countP (fun pr => isFailure pr.2)) = 0 ∧
    (startSearchRun [("a", DetailResponse.success none)]).threads.length ≠
      [("a", DetailResponse.success none)].length - 0 := by
  constructor
  · rfl
  · have h := (startSearchGo_parts [("a", DetailResponse.success none)] initRunState).1
    intro hcon
    rw [show startSearchRun [("a", DetailResponse.success none)] =
        startSearchGo initRunState [("a", DetailResponse.success none)] from rfl, h] at hcon
    simp [initRunState] at hcon

/-- C2 (amended): over N identifiers of which exactly K detail fetches
fail, `startSearch` always returns `errors.length = K`, and
`totalCommentCount` always equals the sum of `countAllComments` over the
returned threads; `threads.length = N - K` holds provided every
non-failing fetch's response carries a post object. -/
theorem c2_partial_failure_aggregation (items : List (String × DetailResponse)) (K : Nat)
    (hK : items.countP (fun pr => isFailure pr.2) = K) :
    (startSearchRun items).errors.length = K ∧
    (startSearchRun items).totalComments =
      ((startSearchRun items).threads.map (fun t => countAllComments t.comments)).sum ∧
    ((∀ pr ∈ items, hasPost pr.2 = true ∨ isFailure pr.2 = true) →
      (startSearchRun items).threads.length = items.length - K) := by
  obtain ⟨ht, he, hc, _⟩ := startSearchGo_parts items initRunState
  have hrun : startSearchRun items = startSearchGo initRunState items := rfl
  refine ⟨?_, ?_, ?_⟩
  · rw [hrun, he]
    simp only [initRunState, List.nil_append]
    rw [length_filterMap_error]
    exact hK
  · rw [hrun, hc, ht]
    simp only [initRunState, List.nil_append, Nat.zero_add]
    exact (sum_counts_eq items).symm
  · intro hp
    have hz : items.countP (fun pr => isNoPost pr.2) = 0 := by
      rw [List.countP_eq_zero]
      intro pr hpr
      cases hr : pr.2 with
      | fail e => simp [isNoPost, hr]
      | thrown e => simp [isNoPost, hr]
      | success post =>
        cases post with
        | some p => simp [isNoPost, hr]
        | none =>
          rcases hp pr hpr with hh | hh <;> rw [hr] at hh <;>
            simp [hasPost, isFailure] at hh
    have htri := countP_trichotomy items
    rw [hrun, ht]
    simp only [initRunState, List.nil_append]
    rw [length_filterMap_thread]
    omega

/-- C2 witness: two identifiers, one success carrying a post with a single
comment, one transport failure; the post-carrying proviso is discharged
concretely for the threads conjunct. -/
theorem c2_partial_failure_aggregation_witness :
    (startSearchRun [("a", DetailResponse.success
        (some ⟨none, none, none, none,
          some [some (GComment.mk none none none none none
            none none none none none none none none)]⟩)),
      ("b", DetailResponse.fail "HTTP 500")]).errors.length = 1 ∧
    (startSearchRun [("a", DetailResponse.success
        (some ⟨none, none, none, none,
          some [some (GComment.mk none none none none none
            none none none none none none none none)]⟩)),
      ("b", DetailResponse.fail "HTTP 500")]).totalComments =
      ((startSearchRun [("a", DetailResponse.success
          (some ⟨none, none, none, none,
            some [some (GComment.mk none none none none none
              none none none none none none none none)]⟩)),
        ("b", DetailResponse.fail "HTTP 500")]).threads.map
          (fun t => countAllComments t.comments)).sum ∧
    (startSearchRun [("a", DetailResponse.success
        (some ⟨none, none, none, none,
          some [some (GComment.mk none none none none none
            none none none none none none none none)]⟩)),
      ("b", DetailResponse.fail "HTTP 500")]).threads.length = 2 - 1 :=
  ⟨(c2_partial_failure_aggregation
      [("a", DetailResponse.success
        (some ⟨none, none, none, none,
          some [some (GComment.mk none none none none none
            none none none none none none none none)]⟩)),
       ("b", DetailResponse.fail "HTTP 500")] 1 rfl).1,
   (c2_partial_failure_aggregation
      [("a", DetailResponse.success
        (some ⟨none, none, none, none,
          some [some (GComment.mk none none none none none
            none none none none none none none none)]⟩)),
       ("b", DetailResponse.fail "HTTP 500")] 1 rfl).2.1,
   (c2_partial_failure_aggregation
      [("a", DetailResponse.success
        (some ⟨none, none, none, none,
          some [some (GComment.mk none none none none none
            none none none none none none none none)]⟩)),
       ("b", DetailResponse.fail "HTTP 500")] 1 rfl).2.2 (by decide)⟩

/-- C3: `countAllComments` returns exactly the number of comment nodes in
any forest, each comment counting 1 plus the recursive count of its
descendants. -/
theorem c3_countAll_counts_nodes (cs : List CommentT) :
    countAllComments cs = nodesOfForest cs :=
  countAll_eq_nodes (sizeOf cs) cs le_rfl

/-- C4 counterexample: a header event completing a pending feedItem capture
with a `Cookie` header present. The emitted template's header map retains
the cookie (the listener captures all headers exactly as sent), refuting
the claim that the correlator strips it before building the template. -/
theorem c4_counterexample :
    (stepCapture
      ⟨[("r1", ⟨UrlKind.feedItem, ⟨some "h"⟩⟩)], none, none, none, none, none, none, false, 0⟩
      (CapEvent.sendHeaders ⟨1, "r1", [("Cookie", "sid=1"), ("Host", "nextdoor.com")]⟩)
      ).capturedFeedItem =
      some ⟨some "h", [("Cookie", "sid=1"), ("Host", "nextdoor.com")], ⟨some "h"⟩, 0⟩ ∧
    hmGet [("Cookie", "sid=1"), ("Host", "nextdoor.com")] "Cookie" = some "sid=1" := by
  decide

/-- C4 (amended): the transport-forbidden headers are removed not at
capture time but at replay time: the content-script `cleanHeaders` step
removes exactly the keys `Host`, `Connection`, `Content-Length` and
`Cookie` before the replayed fetch, leaving every other header entry
unchanged, so the replayed request's header map never contains those
keys. -/
theorem c4_replay_strips_forbidden_headers (m : List (String × String)) :
    hmGet (cleanHeaders m) "Host" = none ∧
    hmGet (cleanHeaders m) "Connection" = none ∧
    hmGet (cleanHeaders m) "Content-Length" = none ∧
    hmGet (cleanHeaders m) "Cookie" = none ∧
    (∀ k2, k2 ≠ "Host" → k2 ≠ "Connection" → k2 ≠ "Content-Length" → k2 ≠ "Cookie" →
      hmGet (cleanHeaders m) k2 = hmGet m k2) := by
  unfold cleanHeaders
  refine ⟨?_, ?_, ?_, ?_, ?_⟩
  · rw [hmGet_hmDel_ne _ _ _ (by decide), hmGet_hmDel_ne _ _ _ (by decide),
      hmGet_hmDel_ne _ _ _ (by decide), hmGet_hmDel_self]
  · rw [hmGet_hmDel_ne _ _ _ (by decide), hmGet_hmDel_ne _ _ _ (by decide),
      hmGet_hmDel_self]
  · rw [hmGet_hmDel_ne _ _ _ (by decide), hmGet_hmDel_self]
  · rw [hmGet_hmDel_self]
  · intro k2 h1 h2 h3 h4
    rw [hmGet_hmDel_ne _ _ _ h4, hmGet_hmDel_ne _ _ _ h3,
      hmGet_hmDel_ne _ _ _ h2, hmGet_hmDel_ne _ _ _ h1]

/-- C4 witness: the CSRF header survives cleaning unchanged on a concrete
header map. -/
theorem c4_replay_strips_forbidden_headers_witness :
    hmGet (cleanHeaders [("Host", "nextdoor.com"), ("Cookie", "sid=1"), ("X-Csrftoken", "c")])
        "X-Csrftoken" =
      hmGet [("Host", "nextdoor.com"), ("Cookie", "sid=1"), ("X-Csrftoken", "c")]
        "X-Csrftoken" :=
  (c4_replay_strips_forbidden_headers
      [("Host", "nextdoor.com"), ("Cookie", "sid=1"), ("X-Csrftoken", "c")]).2.2.2.2
    "X-Csrftoken" (by decide) (by decide) (by decide) (by decide)

/-- C5: whenever a header event completes a pending capture, the listener
calls `persistTemplates()`, writing both captured template slots — the new
template carrying the full observed header map, including every header
value present in it (such as the session-identifying `x-nd-uti`) — to
durable storage, despite the source comment asserting templates are never
persisted. -/
theorem c5_capture_persists_full_header_map (s : CapState) (d : SendHeadersDetails)
    (pc : PendingCapture)
    (hTab : ¬ d.tabId = -1)
    (hPend : hmGet s.pending d.requestId = some pc) :
    ∃ tmpl : Template,
      tmpl.headers = buildHeaders d.requestHeaders ∧
      capturedOf (stepCapture s (CapEvent.sendHeaders d))
          (if pc.kind = UrlKind.searchPost then UrlKind.searchPost else UrlKind.feedItem) =
        some tmpl ∧
      (stepCapture s (CapEvent.sendHeaders d)).storedTemplates =
        some ((stepCapture s (CapEvent.sendHeaders d)).capturedSearchPost,
              (stepCapture s (CapEvent.sendHeaders d)).capturedFeedItem) ∧
      (∀ n v, hmGet (buildHeaders d.requestHeaders) n = some v →
        hmGet tmpl.headers n = some v) := by
  obtain ⟨hup, hucs, hucf, hun⟩ := utiStep_parts s d
  have hg : hmGet (utiStep s d).pending d.requestId = some pc := by
    rw [hup]; exact hPend
  show ∃ tmpl, tmpl.headers = buildHeaders d.requestHeaders ∧
      capturedOf (onSendHeadersStep s d) _ = some tmpl ∧
      (onSendHeadersStep s d).storedTemplates =
        some ((onSendHeadersStep s d).capturedSearchPost,
              (onSendHeadersStep s d).capturedFeedItem) ∧ _
  by_cases hk : pc.kind = UrlKind.searchPost
  · refine ⟨⟨pc.payload.sha256Hash, buildHeaders d.requestHeaders, pc.payload,
      (utiStep s d).now⟩, rfl, ?_, ?_, ?_⟩
    · rw [if_pos hk]
      simp [onSendHeadersStep, hTab, hg, hk, capturedOf]
    · simp [onSendHeadersStep, hTab, hg, hk]
    · intro n v hv; exact hv
  · refine ⟨⟨pc.payload.sha256Hash, buildHeaders d.requestHeaders, pc.payload,
      (utiStep s d).now⟩, rfl, ?_, ?_, ?_⟩
    · rw [if_neg hk]
      simp [onSendHeadersStep, hTab, hg, hk, capturedOf]
    · simp [onSendHeadersStep, hTab, hg, hk]
    · intro n v hv; exact hv

/-- C5 witness: a concrete pending feedItem capture completed by a header
event that carries the session header `x-nd-uti` and a cookie. -/
theorem c5_capture_persists_full_header_map_witness :
    ∃ tmpl : Template,
      tmpl.headers = buildHeaders [("x-nd-uti", "tok"), ("Cookie", "sid=1")] ∧
      capturedOf (stepCapture
          ⟨[("r9", ⟨UrlKind.feedItem, ⟨some "h"⟩⟩)],
            none, none, none, none, none, none, false, 0⟩
          (CapEvent.sendHeaders ⟨7, "r9", [("x-nd-uti", "tok"), ("Cookie", "sid=1")]⟩))
          (if (⟨UrlKind.feedItem, ⟨some "h"⟩⟩ : PendingCapture).kind = UrlKind.searchPost
           then UrlKind.searchPost else UrlKind.feedItem) =
        some tmpl ∧
      (stepCapture
          ⟨[("r9", ⟨UrlKind.feedItem, ⟨some "h"⟩⟩)],
            none, none, none, none, none, none, false, 0⟩
          (CapEvent.sendHeaders ⟨7, "r9", [("x-nd-uti", "tok"), ("Cookie", "sid=1")]⟩)
          ).storedTemplates =
        some ((stepCapture
            ⟨[("r9", ⟨UrlKind.feedItem, ⟨some "h"⟩⟩)],
              none, none, none, none, none, none, false, 0⟩
            (CapEvent.sendHeaders ⟨7, "r9", [("x-nd-uti", "tok"), ("Cookie", "sid=1")]⟩)
            ).capturedSearchPost,
          (stepCapture
            ⟨[("r9", ⟨UrlKind.feedItem, ⟨some "h"⟩⟩)],
              none, none, none, none, none, none, false, 0⟩
            (CapEvent.sendHeaders ⟨7, "r9", [("x-nd-uti", "tok"), ("Cookie", "sid=1")]⟩)
            ).capturedFeedItem) ∧
      (∀ n v, hmGet (buildHeaders [("x-nd-uti", "tok"), ("Cookie", "sid=1")]) n = some v →
        hmGet tmpl.headers n = some v) :=
  c5_capture_persists_full_header_map
    ⟨[("r9", ⟨UrlKind.feedItem, ⟨some "h"⟩⟩)], none, none, none, none, none, none, false, 0⟩
    ⟨7, "r9", [("x-nd-uti", "tok"), ("Cookie", "sid=1")]⟩
    ⟨UrlKind.feedItem, ⟨some "h"⟩⟩
    (by decide) (by decide)

/-- C7: a body observation is ignored — the correlator state, including the
pending-capture map, is left completely unchanged — whenever it originates
from the extension's own fetch calls (sentinel `tabId === -1`) or while a
replay run is in progress (`state.isRunning`). -/
theorem c7_replay_traffic_not_captured (s : CapState) (d : BeforeRequestDetails)
    (h : d.tabId = -1 ∨ s.isRunning = true) :
    stepCapture s (CapEvent.beforeRequest d) = s := by
  show onBeforeRequestStep s d = s
  rcases h with h1 | h2
  · simp [onBeforeRequestStep, h1]
  · unfold onBeforeRequestStep
    repeat' split
    all_goals simp_all

/-- C7 witness: a sentinel-originated body observation leaves a concrete
state untouched. -/
theorem c7_replay_traffic_not_captured_witness :
    stepCapture initCapState
      (CapEvent.beforeRequest ⟨-1, "r1", some (some ⟨some "h"⟩), UrlKind.searchPost⟩) =
      initCapState :=
  c7_replay_traffic_not_captured initCapState
    ⟨-1, "r1", some (some ⟨some "h"⟩), UrlKind.searchPost⟩ (Or.inl rfl)

/-- C6 counterexample: on `c6Node` the spec-described resolution would pass
over the empty first path and return the one reply under
`childComments.edges`, but the code's `||` chain stops at the present
(empty, yet truthy) first path, so the extracted comment has no replies. -/
theorem c6_counterexample :
    c6Node.repliesPagedEdges = some [] ∧
    c6Node.childEdges = some [some c6Leaf] ∧
    resolveRepliesSpec c6Node = [some c6Leaf] ∧
    resolveRepliesData c6Node = [] ∧
    (extractCommentWithReplies (some c6Node) 0).map CommentT.replies = some [] := by
  refine ⟨rfl, rfl, ?_, ?_, ?_⟩
  · simp [resolveRepliesSpec, replyPaths, c6Node, List.findSome?]
  · simp [resolveRepliesData, c6Node, jsOr]
  · simp [extractCommentWithReplies, c6Node, extractGC, CommentT.replies, extractEdgeList]

/-- C6 (amended): nested replies are resolved by checking the known
alternate field paths in a fixed priority order and using the first path
that is *defined* — a present-but-empty list at an earlier path is used
(short-circuiting later non-empty paths) rather than passed over; each
reply found is built with nesting level exactly one greater than its
parent's. -/
theorem c6_reply_resolution_and_levels (c : GComment) (level : Nat) :
    resolveRepliesData c = ((replyPaths c).findSome? id).getD [] ∧
    (extractGC c level).replies = extractEdgeList (resolveRepliesData c) (level + 1) ∧
    (extractGC c level).level = level ∧
    levelsOk (extractGC c level) = true :=
  ⟨resolveRepliesData_eq_findSome c, extractGC_replies c level, extractGC_level c level,
    levelsOk_extractGC (sizeOf c) c le_rfl level⟩

/-- C8: for any sequence of model responses — in particular one that always
requests a tool call — the `handleChatMessage` loop performs at most the
fixed bound of 3 `completionWithTools` rounds, and exhausting the bound
ends the run with the fixed apologetic message rather than an error. -/
theorem c8_tool_loop_bounded (responses : Nat → ModelResponse) :
    (handleChatToolLoop responses).2 ≤ MAX_TOOL_ITERATIONS ∧
    MAX_TOOL_ITERATIONS = 3 ∧
    ((∀ i, ∃ calls, responses i = ModelResponse.toolCall (some calls)) →
      handleChatToolLoop responses =
        (ChatOutcome.apology APOLOGY_MESSAGE, MAX_TOOL_ITERATIONS)) := by
  refine ⟨?_, rfl, ?_⟩
  · exact chatLoopGo_calls_le responses MAX_TOOL_ITERATIONS 0 (by omega) (by omega)
  · intro hall
    exact chatLoopGo_allTool responses hall MAX_TOOL_ITERATIONS 0 (by omega) (by omega)

/-- C8 witness: a model that always asks for a `searchPosts` tool call is
cut off after exactly 3 rounds with the apology message. -/
theorem c8_tool_loop_bounded_witness :
    handleChatToolLoop
        (fun _ => ModelResponse.toolCall (some [⟨"call1", "searchPosts", "query=plumber"⟩])) =
      (ChatOutcome.apology APOLOGY_MESSAGE, MAX_TOOL_ITERATIONS) :=
  (c8_tool_loop_bounded
      (fun _ => ModelResponse.toolCall (some [⟨"call1", "searchPosts", "query=plumber"⟩]))).2.2
    (fun _ => ⟨[⟨"call1", "searchPosts", "query=plumber"⟩], rfl⟩)

/-- C9: in both the primary `startSearch` run and the tool-caller
`fetchThreadDetailsWithProgress` variant, the emitted action trace is the
fetches in order with the fixed 150 ms delay between consecutive fetches
and no delay after the final one. -/
theorem c9_delay_between_consecutive_fetches (items : List (String × DetailResponse)) :
    (startSearchRun items).trace =
      List.intersperse (RunAction.delay 150) (items.map (fun pr => RunAction.fetch pr.1)) ∧
    (fetchDetailsRun items).trace =
      List.intersperse (RunAction.delay 150) (items.map (fun pr => RunAction.fetch pr.1)) := by
  have h1 := (startSearchGo_parts items initRunState).2.2.2
  have h2 := (fetchDetailsGo_parts items ⟨[], [], []⟩).2.2
  rw [detailTrace_eq_intersperse] at h1 h2
  constructor
  · rw [show startSearchRun items = startSearchGo initRunState items from rfl, h1]
    simp [initRunState]
  · rw [show fetchDetailsRun items = fetchDetailsGo ⟨[], [], []⟩ items from rfl, h2]
    simp

/-- C10: a transport-successful detail fetch whose response has no post
object appends neither a thread nor an error entry, in both loops; hence
`threads.length + errors.length` equals the item count minus the number of
post-less successes, and is strictly below the item count whenever such a
response occurs. -/
theorem c10_postless_success_silently_skipped (items : List (String × DetailResponse))
    (h : 0 < items.countP (fun pr => isNoPost pr.2)) :
    (∀ (s : RunState) (pid : String),
      (startSearchItem s pid (DetailResponse.success none)).threads = s.threads ∧
      (startSearchItem s pid (DetailResponse.success none)).errors = s.errors) ∧
    (∀ (s : FetchDetailsState) (pid : String),
      (fetchDetailsItem s pid (DetailResponse.success none)).threads = s.threads ∧
      (fetchDetailsItem s pid (DetailResponse.success none)).errors = s.errors) ∧
    (startSearchRun items).threads.length + (startSearchRun items).errors.length =
      items.length - items.countP (fun pr => isNoPost pr.2) ∧
    (startSearchRun items).threads.length + (startSearchRun items).errors.length <
      items.length ∧
    (fetchDetailsRun items).threads.length + (fetchDetailsRun items).errors.length =
      items.length - items.countP (fun pr => isNoPost pr.2) := by
  have htri := countP_trichotomy items
  have hle := List.countP_le_length (l := items) (p := fun pr => isNoPost pr.2)
  obtain ⟨ht, he, _, _⟩ := startSearchGo_parts items initRunState
  obtain ⟨ft, fe, _⟩ := fetchDetailsGo_parts items ⟨[], [], []⟩
  have hts : (startSearchRun items).threads.length =
      items.countP (fun pr => hasPost pr.2) := by
    rw [show startSearchRun items = startSearchGo initRunState items from rfl, ht]
    simp only [initRunState, List.nil_append]
    exact length_filterMap_thread items
  have hes : (startSearchRun items).errors.length =
      items.countP (fun pr => isFailure pr.2) := by
    rw [show startSearchRun items = startSearchGo initRunState items from rfl, he]
    simp only [initRunState, List.nil_append]
    exact length_filterMap_error items
  have htf : (fetchDetailsRun items).threads.length =
      items.countP (fun pr => hasPost pr.2) := by
    rw [show fetchDetailsRun items = fetchDetailsGo ⟨[], [], []⟩ items from rfl, ft]
    simp only [List.nil_append]
    exact length_filterMap_thread items
  have hef : (fetchDetailsRun items).errors.length =
      items.countP (fun pr => isFailure pr.2) := by
    rw [show fetchDetailsRun items = fetchDetailsGo ⟨[], [], []⟩ items from rfl, fe]
    simp only [List.nil_append]
    exact length_filterMap_error items
  refine ⟨fun s pid => ⟨rfl, rfl⟩, fun s pid => ⟨rfl, rfl⟩, ?_, ?_, ?_⟩
  · rw [hts, hes]; omega
  · rw [hts, hes]; omega
  · rw [htf, hef]; omega

/-- C10 witness: a single post-less transport success yields empty thread
and error lists, strictly fewer entries than items. -/
theorem c10_postless_success_silently_skipped_witness :
    (∀ (s : RunState) (pid : String),
      (startSearchItem s pid (DetailResponse.success none)).threads = s.threads ∧
      (startSearchItem s pid (DetailResponse.success none)).errors = s.errors) ∧
    (∀ (s : FetchDetailsState) (pid : String),
      (fetchDetailsItem s pid (DetailResponse.success none)).threads = s.threads ∧
      (fetchDetailsItem s pid (DetailResponse.success none)).errors = s.errors) ∧
    (startSearchRun [("a", DetailResponse.success none)]).threads.length +
        (startSearchRun [("a", DetailResponse.success none)]).errors.length =
      [("a", DetailResponse.success none)].length -
        [("a", DetailResponse.success none)].countP (fun pr => isNoPost pr.2) ∧
    (startSearchRun [("a", DetailResponse.success none)]).threads.length +
        (startSearchRun [("a", DetailResponse.success none)]).errors.length <
      [("a", DetailResponse.success none)].length ∧
    (fetchDetailsRun [("a", DetailResponse.success none)]).threads.length +
        (fetchDetailsRun [("a", DetailResponse.success none)]).errors.length =
      [("a", DetailResponse.success none)].length -
        [("a", DetailResponse.success none)].countP (fun pr => isNoPost pr.2) :=
  c10_postless_success_silently_skipped [("a", DetailResponse.success none)] (by decide)
